import Mathlib

/-!
Verification of the SafeVision dashboard core (api/static/dashboard.js):
the event-notification / polling engine and the report generators.

The JavaScript source is shallowly embedded as pure Lean functions:
  - the module-level `notifications` array (the seen-event tracker) is a
    `List Nat` threaded explicitly through the cycle functions;
  - JavaScript numbers holding event ids are `Nat` (ids are positive
    `INTEGER PRIMARY KEY AUTOINCREMENT` values);
  - the recognition confidence `confianza` (a float in [0,1]) is modelled
    as `Rat`, and `toFixed(1)` as exact decimal rounding;
  - `fetch`/`response.json()` outcomes are an explicit `FetchOutcome`
    value: either a thrown error (network / parse failure) or a parsed
    body with its `success` flag;
  - DOM writes are recorded as values in step-result structures, and
    `console.error` calls as log strings.
-/

namespace SafeVision

/-- Number rendering used for JavaScript template interpolation of a
nonnegative integer (decimal, most significant digit first).  Structural
fuel recursion (`fuel ≥ n` always holds at the call site) so that it
reduces by `decide`/`rfl`. -/
def natRenderAux : Nat → Nat → List Char → List Char
  | 0, _, acc => acc
  | fuel + 1, n, acc =>
    if n = 0 then acc
    else natRenderAux fuel (n / 10) (Nat.digitChar (n % 10) :: acc)

/-- Decimal digit list of `n`, as produced by JavaScript string
interpolation of a nonnegative number. -/
def natRender (n : Nat) : List Char :=
  if n = 0 then ['0'] else natRenderAux n n []

/-- String form of `natRender`. -/
def strOfNat (n : Nat) : String :=
  String.mk (natRender n)

/-- Model of JavaScript `Array.prototype.join(sep)`. -/
def joinSep (sep : String) : List String → String
  | [] => ""
  | [x] => x
  | x :: y :: xs => x ++ sep ++ joinSep sep (y :: xs)

/-- An event record as fetched from `GET /eventos` (table `eventos`:
server-assigned unique id plus the fields the dashboard reads). -/
structure Evento where
  id : Nat
  tipo : String
  severidad : String
  descripcion : String
  timestamp : String
  camara_nombre : String
  resuelto : Bool
  deriving DecidableEq

/-- A detection record as fetched from `GET /detecciones`. -/
structure Detection where
  nombre : String
  apellido : Option String
  es_desconocido : Bool
  confianza : Rat
  timestamp : String
  deriving DecidableEq

/-- A toast notification request (`showNotification` arguments). -/
structure Notif where
  title : String
  message : String
  kind : String
  deriving DecidableEq

/-- Outcome of one `fetch` + `response.json()` round:
`err` models a thrown error (network unreachable, malformed payload),
`ok success data` a parsed body with its `success` flag. -/
inductive FetchOutcome (α : Type) where
  | err : FetchOutcome α
  | ok : Bool → α → FetchOutcome α
  deriving DecidableEq

/-- A fetch step failed when it threw or returned an unsuccessful body. -/
def FetchOutcome.failed : FetchOutcome α → Bool
  | .err => true
  | .ok s _ => !s

/-!  Seen-event tracker (the module-level `notifications` array). -/

/-- The membership test `!notifications.includes(e.id)` from line 38 of
`checkNewEvents`: an id is new when it is not in the seen list. -/
def isNew (notifications : List Nat) (id : Nat) : Bool :=
  !(notifications.contains id)

/-- The per-identifier seen-set update performed by `checkNewEvents` for
one event: the membership guard of the `filter` on line 38 followed by
the `notifications.push(event.id)` on line 47.  An id already present is
left alone; a new id is appended. -/
def markSeen (notifications : List Nat) (id : Nat) : List Nat :=
  if notifications.contains id then notifications else notifications ++ [id]

/-- The NotificationRequest built for a fresh event (lines 42-46). -/
def eventNotif (e : Evento) : Notif :=
  ⟨"🚨 Nuevo Evento", e.tipo ++ ": " ++ e.descripcion, "error"⟩

/-- Lines 38-52 of `checkNewEvents` (the `data.success` branch):
filter the fetched events against the seen list, present one
notification per new event, and push each new id.  Returns the
notifications presented and the updated seen list. -/
def processEvents (notifications : List Nat) (events : List Evento) :
    List Notif × List Nat :=
  let newEvents := events.filter (fun e => isNew notifications e.id)
  (newEvents.map eventNotif, notifications ++ newEvents.map Evento.id)

/-!  Poll-cycle steps with their try/catch error handling. -/

/-- Result of the `checkNewEvents` step (lines 32-57): the notifications
presented, the seen list after the step, and any `console.error` log. -/
structure EventsStep where
  notifs : List Notif
  seen : List Nat
  logs : List String
  deriving DecidableEq

/-- `checkNewEvents` (lines 32-57) as a function of the fetch outcome: a
thrown error is caught and logged (line 55) leaving the state alone; an
unsuccessful body is skipped by the `data.success` guard; a successful
body goes through the filter / notify / push block. -/
def checkNewEvents (notifications : List Nat) (f : FetchOutcome (List Evento)) :
    EventsStep :=
  match f with
  | .err => ⟨[], notifications, ["Error verificando eventos:"]⟩
  | .ok success data =>
    if success then
      let r := processEvents notifications data
      ⟨r.1, r.2, []⟩
    else ⟨[], notifications, []⟩

/-- Aggregate counters rendered by `loadStats` (lines 87-93). -/
structure Stats where
  personas_registradas : Nat
  detecciones_hoy : Nat
  personas_unicas_hoy : Nat
  desconocidos_hoy : Nat
  eventos_pendientes : Nat
  camaras_activas : Nat
  deriving DecidableEq

/-- `loadStats` (lines 81-98): renders the counters only on a successful
body; a thrown error is caught and logged (line 96); either failure
leaves the displayed counters untouched (`none`). -/
def loadStats (f : FetchOutcome Stats) : Option Stats × List String :=
  match f with
  | .err => (none, ["Error cargando estadísticas:"])
  | .ok success data => if success then (some data, []) else (none, [])

/-- What the detections container shows after `loadDetecciones`:
untouched on a thrown error, the item list when the fetch succeeded
with data, the "no recent detections" placeholder otherwise. -/
inductive DetDisplay where
  | unchanged : DetDisplay
  | items : List Detection → DetDisplay
  | placeholder : DetDisplay
  deriving DecidableEq

/-- `loadDetecciones` (lines 104-132): on success with a non-empty list
the items are rendered; on success with an empty list or an
unsuccessful body the placeholder is rendered; a thrown error is caught
and logged (line 130) before the container is written. -/
def loadDetecciones (f : FetchOutcome (List Detection)) :
    DetDisplay × List String :=
  match f with
  | .err => (.unchanged, ["Error cargando detecciones:"])
  | .ok success data =>
    if success ∧ data ≠ [] then (.items data, []) else (.placeholder, [])

/-- The fixed poll interval of `init` (line 25): 30 seconds. -/
def INTERVAL_MS : Nat := 30000

/-- Everything one poll cycle produces (the `setInterval` callback of
lines 21-25 runs `loadStats`, `loadDetecciones`, `checkNewEvents`). -/
structure CycleResult where
  stats : Option Stats
  dets : DetDisplay
  notifs : List Notif
  seen : List Nat
  logs : List String
  deriving DecidableEq

/-- One poll cycle: the three steps run with their own try/catch blocks,
each consuming its own fetch outcome. -/
def runCycle (notifications : List Nat) (sF : FetchOutcome Stats)
    (dF : FetchOutcome (List Detection)) (eF : FetchOutcome (List Evento)) :
    CycleResult :=
  let s := loadStats sF
  let d := loadDetecciones dF
  let e := checkNewEvents notifications eF
  ⟨s.1, d.1, e.notifs, e.seen, s.2 ++ d.2 ++ e.logs⟩

/-- The repeating schedule: `setInterval` re-arms every `INTERVAL_MS`
regardless of the previous cycle's outcome, so every scheduled cycle
runs, threading the seen list through. -/
def runCycles (notifications : List Nat) :
    List (FetchOutcome Stats × FetchOutcome (List Detection) × FetchOutcome (List Evento)) →
    List CycleResult
  | [] => []
  | (sF, dF, eF) :: rest =>
    let r := runCycle notifications sF dF eF
    r :: runCycles r.seen rest

/-!  Toast notification slot (`showNotification`, lines 63-75).

`showNotification` writes the toast's class, title and message, then
schedules `toast.classList.remove('active')` 5000 ms later via
`setTimeout`, without ever cancelling a previously scheduled removal.
The DOM slot is modelled as a `Toast`, and a run of the browser's timer
queue as the time-ordered list of `show` calls and timer firings. -/

/-- The display duration of `showNotification` (line 74). -/
def TOAST_MS : Nat := 5000

/-- The single toast DOM slot: its current content, kind and whether
the `active` class is present. -/
structure Toast where
  title : String
  message : String
  kind : String
  active : Bool
  deriving DecidableEq

/-- The toast before any notification: inactive, empty content. -/
def initialToast : Toast :=
  ⟨"", "", "", false⟩

/-- A DOM-affecting occurrence: a `showNotification(title, message,
type)` call (lines 68-70), or the firing of one of its `setTimeout`
callbacks (lines 72-74). -/
inductive UIEvent where
  | show : String → String → String → UIEvent
  | timerFire : UIEvent
  deriving DecidableEq

/-- Effect of one occurrence on the toast slot: a show call overwrites
content, kind and sets `active`; a timer firing removes `active` and
leaves the content alone. -/
def stepUI (t : Toast) : UIEvent → Toast
  | .show title message kind => ⟨title, message, kind, true⟩
  | .timerFire => { t with active := false }

/-- State of the toast slot at time `now`, given the time-ordered list
of occurrences (each paired with its time): all occurrences up to and
including `now` have been applied. -/
def toastAt (trace : List (Nat × UIEvent)) (now : Nat) : Toast :=
  ((trace.filter (fun p => p.1 ≤ now)).map Prod.snd).foldl stepUI initialToast

/-- The occurrence trace generated by calling `showNotification` with
request `A` at time `tA` and with request `B` at time `tB`, where
`tA ≤ tB < tA + TOAST_MS`: each call schedules its own un-cancelled
dismissal `TOAST_MS` later. -/
def twoPresentTrace (tA tB : Nat) (A B : Notif) : List (Nat × UIEvent) :=
  [(tA, .show A.title A.message A.kind),
   (tB, .show B.title B.message B.kind),
   (tA + TOAST_MS, .timerFire),
   (tB + TOAST_MS, .timerFire)]

/-!  Report generators (pure functions at the bottom of dashboard.js). -/

/-- `generateCSV` (lines 498-505): generic delimited export.  A record is
its association list of field names to stringified values (JavaScript
`Object.keys` / `Object.values` iteration order).  Empty input returns
the empty string; otherwise the first record's keys form the header and
every record contributes one comma-joined row, with no escaping. -/
def generateCSV (data : List (List (String × String))) : String :=
  match data with
  | [] => ""
  | first :: _ =>
    let headers := joinSep "," (first.map Prod.fst)
    let rows := joinSep "\n" (data.map (fun item => joinSep "," (item.map Prod.snd)))
    headers ++ "\n" ++ rows

/-- Spec-side description of the generic export's header line: the
first record's field names, comma-joined. -/
def csvHeaderLine (r : List (String × String)) : String :=
  joinSep "," (r.map Prod.fst)

/-- Spec-side description of a generic export row: the record's field
values, comma-joined, with no escaping. -/
def csvRowLine (r : List (String × String)) : String :=
  joinSep "," (r.map Prod.snd)

/-- One row of the events CSV (line 510): id unquoted, the five string
fields wrapped in double quotes, `resuelto` interpolated as a boolean. -/
def eventoRow (e : Evento) : String :=
  strOfNat e.id ++ ",\"" ++ e.tipo ++ "\",\"" ++ e.severidad ++ "\",\"" ++
    e.descripcion ++ "\",\"" ++ e.timestamp ++ "\",\"" ++ e.camara_nombre ++
    "\"," ++ (if e.resuelto then "true" else "false")

/-- `generateEventosCSV` (lines 507-514): fixed header line then the
quoted rows joined by newlines. -/
def generateEventosCSV (data : List Evento) : String :=
  let headers := "ID,Tipo,Severidad,Descripcion,Timestamp,Camara,Resuelto\n"
  let rows := joinSep "\n" (data.map eventoRow)
  headers ++ rows

/-!  Parser for the events CSV.

The round-trip property of the spec asks that the generated CSV,
parsed back *respecting its quoting convention*, reproduce the
records.  The convention of `generateEventosCSV` is: a decimal id, a
comma, five fields each wrapped in double quotes and separated by
commas (with no escape for a quote inside a field), a comma, and a
`true` / `false` literal; records are separated by newlines after a
fixed header line.  The parser below reads exactly that convention. -/

/-- Split the characters before the first `c` from those after it;
`none` when `c` does not occur. -/
def readUntil (c : Char) : List Char → Option (List Char × List Char)
  | [] => none
  | x :: xs =>
    if x = c then some ([], xs)
    else (readUntil c xs).map (fun p => (x :: p.1, p.2))

/-- Read one quoted CSV field followed by a comma: an opening quote,
the field body up to the next quote, then the separating comma. -/
def readQuotedComma (cs : List Char) : Option (List Char × List Char) :=
  match cs with
  | '"' :: rest =>
    match readUntil '"' rest with
    | some (field, ',' :: rest2) => some (field, rest2)
    | _ => none
  | _ => none

/-- Value of a decimal digit string (most significant digit first). -/
def digitsVal (cs : List Char) : Nat :=
  cs.foldl (fun a c => a * 10 + (c.toNat - 48)) 0

/-- Value of a decimal digit string; `none` if empty or non-digit. -/
def digitsToNat? (cs : List Char) : Option Nat :=
  if cs ≠ [] ∧ cs.all Char.isDigit then some (digitsVal cs) else none

/-- Parse the final boolean cell of a row. -/
def parseBoolEnd (cs : List Char) : Option Bool :=
  if cs = ['t', 'r', 'u', 'e'] then some true
  else if cs = ['f', 'a', 'l', 's', 'e'] then some false
  else none

/-- Parse one data row of the events CSV back into a record. -/
def parseEventoLine (cs : List Char) : Option Evento := do
  let (idCs, r1) ← readUntil ',' cs
  let n ← digitsToNat? idCs
  let (tipo, r2) ← readQuotedComma r1
  let (sev, r3) ← readQuotedComma r2
  let (desc, r4) ← readQuotedComma r3
  let (ts, r5) ← readQuotedComma r4
  let (cam, r6) ← readQuotedComma r5
  let b ← parseBoolEnd r6
  pure ⟨n, String.mk tipo, String.mk sev, String.mk desc, String.mk ts,
    String.mk cam, b⟩

/-- Split a character list at every newline. -/
def splitNl : List Char → List (List Char)
  | [] => [[]]
  | c :: cs =>
    if c = '\n' then [] :: splitNl cs
    else
      match splitNl cs with
      | [] => [[c]]
      | l :: ls => (c :: l) :: ls

/-- The header line emitted by `generateEventosCSV`, with its trailing
newline. -/
def eventosHeader : String :=
  "ID,Tipo,Severidad,Descripcion,Timestamp,Camara,Resuelto\n"

/-- Parse an events CSV document: check the fixed header line, then
parse each newline-separated row.  An empty body yields no records. -/
def parseEventosCSV (csv : String) : Option (List Evento) :=
  let cs := csv.data
  let h := eventosHeader.data
  if cs.take h.length = h then
    let body := cs.drop h.length
    if body = [] then some []
    else (splitNl body).mapM parseEventoLine
  else none

/-- Character form of a JavaScript boolean interpolation. -/
def boolChars (b : Bool) : List Char :=
  if b then ['t', 'r', 'u', 'e'] else ['f', 'a', 'l', 's', 'e']

/-- A string field that survives the events CSV quoting convention:
it contains no double quote (which the generator does not escape) and
no newline (which would split the row). -/
def cleanField (s : String) : Prop :=
  '"' ∉ s.data ∧ '\n' ∉ s.data

instance (s : String) : Decidable (cleanField s) := by
  unfold cleanField
  infer_instance

/-- All five quoted string fields of an event are clean. -/
def cleanEvento (e : Evento) : Prop :=
  cleanField e.tipo ∧ cleanField e.severidad ∧ cleanField e.descripcion ∧
    cleanField e.timestamp ∧ cleanField e.camara_nombre

instance (e : Evento) : Decidable (cleanEvento e) := by
  unfold cleanEvento
  infer_instance

/-- JavaScript `(c * 100).toFixed(1)` for a nonnegative rational `c`
(the recognition confidence, a value in [0,1]): round `c * 1000` to the
nearest integer `n` (half up) and print `n / 10`, a dot, and `n % 10`.
For `c = num / den` in lowest terms with `num ≥ 0` the rounded value is
`⌊c * 1000 + 1/2⌋ = (2000 * num + den) / (2 * den)`, computed here
directly on the numerator and denominator so that it evaluates by
kernel reduction (certified by `pctToFixed1_rounds` below). -/
def pctToFixed1 (c : Rat) : String :=
  let n : Nat := (2000 * c.num.toNat + c.den) / (2 * c.den)
  strOfNat (n / 10) ++ "." ++ strOfNat (n % 10)

/-- The rule line `'─'.repeat(70)` of the structured reports. -/
def ruleLine : String :=
  String.mk (List.replicate 70 '─')

/-- One record block of the detections report (lines 522-528):
ordinal, name (surname defaulted to the empty string), date, known /
unknown status, confidence as a percentage to one decimal place. -/
def detBlock (idx : Nat) (det : Detection) : String :=
  strOfNat (idx + 1) ++ ". " ++ det.nombre ++ " " ++ det.apellido.getD "" ++ "\n" ++
    "   Fecha: " ++ det.timestamp ++ "\n" ++
    "   Estado: " ++ (if det.es_desconocido then "DESCONOCIDO" else "CONOCIDO") ++ "\n" ++
    "   Confianza: " ++ pctToFixed1 det.confianza ++ "%\n" ++ "\n"

/-- The banner / timestamp / count / rule prefix of the detections
report (lines 517-520); `now` is `new Date().toLocaleString('es-MX')`. -/
def pdfHeader (now : String) (total : Nat) : String :=
  "=== REPORTE DE DETECCIONES ===\n\n" ++
    ("Generado: " ++ now ++ "\n") ++
    ("Total de detecciones: " ++ strOfNat total ++ "\n\n") ++
    (ruleLine ++ "\n\n")

/-- `generatePDFContent` (lines 516-531): header then one block per
detection, appended in order (`forEach` with index). -/
def generatePDFContent (now : String) (data : List Detection) : String :=
  pdfHeader now data.length ++
    String.join (data.enum.map (fun p => detBlock p.1 p.2))

/-- The seen list after a whole session of poll cycles, each cycle
processing one fetched event list through `processEvents`. -/
def seenAfterCycles (notifications : List Nat) (cycles : List (List Evento)) :
    List Nat :=
  cycles.foldl (fun s evs => (processEvents s evs).2) notifications

/-!  Helper lemmas. -/

theorem contains_iff_mem (l : List Nat) (x : Nat) :
    l.contains x = true ↔ x ∈ l :=
  List.elem_iff

theorem isNew_eq_false_iff (l : List Nat) (x : Nat) :
    isNew l x = false ↔ x ∈ l := by
  rw [isNew, Bool.not_eq_false', contains_iff_mem]

theorem isNew_eq_true_iff (l : List Nat) (x : Nat) :
    isNew l x = true ↔ x ∉ l := by
  rw [isNew, Bool.not_eq_true', Bool.eq_false_iff, ne_eq, contains_iff_mem]

theorem isNew_append (l m : List Nat) (x : Nat) (h : isNew l x = false) :
    isNew (l ++ m) x = false := by
  rw [isNew_eq_false_iff] at h ⊢
  exact List.mem_append_left _ h

theorem markSeen_of_mem {l : List Nat} {x : Nat} (h : x ∈ l) :
    markSeen l x = l := by
  rw [markSeen, if_pos ((contains_iff_mem l x).mpr h)]

theorem markSeen_of_not_mem {l : List Nat} {x : Nat} (h : x ∉ l) :
    markSeen l x = l ++ [x] := by
  rw [markSeen, if_neg]
  rw [contains_iff_mem]
  exact h

theorem isNew_markSeen_self (l : List Nat) (x : Nat) :
    isNew (markSeen l x) x = false := by
  rw [isNew_eq_false_iff, markSeen]
  split
  · exact (contains_iff_mem l x).mp (by assumption)
  · exact List.mem_append_right _ (List.mem_singleton_self x)

theorem isNew_markSeen_other (l : List Nat) {x y : Nat} (h : x ≠ y) :
    isNew (markSeen l y) x = isNew l x := by
  rw [markSeen]
  split
  · rfl
  · rw [isNew, isNew, Bool.not_inj_iff]
    rw [Bool.eq_iff_iff, contains_iff_mem, contains_iff_mem,
      List.mem_append, List.mem_singleton]
    exact ⟨fun hm => hm.elim id (fun he => absurd he h),
      fun hm => Or.inl hm⟩

theorem isNew_markSeen_of_false (l : List Nat) (x y : Nat)
    (h : isNew l x = false) : isNew (markSeen l y) x = false := by
  rw [markSeen]
  split
  · exact h
  · exact isNew_append _ _ _ h

/-- The seen-list update of one cycle, written as an append. -/
theorem processEvents_seen (notifications : List Nat) (events : List Evento) :
    (processEvents notifications events).2 =
      notifications ++
        (events.filter (fun e => isNew notifications e.id)).map Evento.id :=
  rfl

/-- On a fetched list with pairwise distinct ids, the batch update of
`checkNewEvents` (filter computed once, then push each survivor) agrees
with marking each event's id one at a time. -/
theorem processEvents_seen_eq_foldl (notifications : List Nat)
    (events : List Evento) (h : (events.map Evento.id).Nodup) :
    (processEvents notifications events).2 =
      events.foldl (fun s e => markSeen s e.id) notifications := by
  induction events generalizing notifications with
  | nil => simp [processEvents]
  | cons e es ih =>
    rw [List.map_cons, List.nodup_cons] at h
    rw [processEvents_seen, List.filter_cons, List.foldl_cons]
    by_cases hc : e.id ∈ notifications
    · rw [if_neg (by rw [(isNew_eq_false_iff _ _).mpr hc]; exact Bool.false_ne_true),
        markSeen_of_mem hc, ← ih notifications h.2, processEvents_seen]
    · rw [if_pos ((isNew_eq_true_iff _ _).mpr hc), List.map_cons,
        markSeen_of_not_mem hc, ← ih (notifications ++ [e.id]) h.2,
        processEvents_seen, List.append_cons]
      congr 2
      apply List.filter_congr
      intro x hx
      have hne : x.id ≠ e.id := fun he => h.1 (he ▸ List.mem_map_of_mem Evento.id hx)
      rw [show notifications ++ [e.id] = markSeen notifications e.id from
        (markSeen_of_not_mem hc).symm, isNew_markSeen_other _ hne]

theorem string_join_nil : String.join [] = "" :=
  rfl

theorem string_join_singleton (s : String) : String.join [s] = s := by
  show "" ++ s = s
  apply String.ext
  simp [String.data_append]

theorem splitNl_of_not_mem {cs : List Char} (h : '\n' ∉ cs) :
    splitNl cs = [cs] := by
  induction cs with
  | nil => rfl
  | cons c cs ih =>
    rw [splitNl]
    rw [List.mem_cons] at h
    push_neg at h
    rw [if_neg (fun hc => h.1 hc.symm), ih h.2]

theorem splitNl_append {a : List Char} (b : List Char) (h : '\n' ∉ a) :
    splitNl (a ++ '\n' :: b) = a :: splitNl b := by
  induction a with
  | nil => simp [splitNl]
  | cons c cs ih =>
    rw [List.mem_cons] at h
    push_neg at h
    rw [List.cons_append, splitNl, if_neg (fun hc => h.1 hc.symm),
      ih h.2]

theorem mem_joinSep {sep : String} {l : List String} {c : Char}
    (h : c ∈ (joinSep sep l).data) :
    c ∈ sep.data ∨ ∃ s ∈ l, c ∈ s.data := by
  induction l with
  | nil => simp [joinSep] at h
  | cons x xs ih =>
    match xs, h with
    | [], h => exact Or.inr ⟨x, List.mem_cons_self .., h⟩
    | y :: ys, h =>
      rw [joinSep, String.data_append, String.data_append] at h
      rcases List.mem_append.mp h with h1 | h2
      · rcases List.mem_append.mp h1 with ha | hb
        · exact Or.inr ⟨x, List.mem_cons_self .., ha⟩
        · exact Or.inl hb
      · rcases ih h2 with hs | ⟨s, hmem, hc⟩
        · exact Or.inl hs
        · exact Or.inr ⟨s, List.mem_cons_of_mem _ hmem, hc⟩

theorem splitNl_joinSep {lines : List String} (h : lines ≠ [])
    (hnl : ∀ l ∈ lines, '\n' ∉ l.data) :
    splitNl (joinSep "\n" lines).data = lines.map String.data := by
  induction lines with
  | nil => exact absurd rfl h
  | cons x xs ih =>
    match xs with
    | [] =>
      rw [joinSep, List.map]
      exact splitNl_of_not_mem (hnl x (List.mem_cons_self ..))
    | y :: ys =>
      have hx : '\n' ∉ x.data := hnl x (List.mem_cons_self ..)
      have hxs : ∀ l ∈ y :: ys, '\n' ∉ l.data :=
        fun l hl => hnl l (List.mem_cons_of_mem _ hl)
      rw [joinSep, String.data_append, String.data_append,
        show "\n".data = ['\n'] from rfl, List.append_assoc,
        List.singleton_append, splitNl_append _ hx, ih (by simp) hxs]
      simp

/-- The ids pushed in one cycle are the fetched ids that were unseen,
in fetch order. -/
theorem processEvents_new_ids (notifications : List Nat) (events : List Evento) :
    (events.filter (fun e => isNew notifications e.id)).map Evento.id =
      (events.map Evento.id).filter (fun i => isNew notifications i) := by
  rw [List.filter_map]
  rfl

/-- One cycle never pushes an id more than once (given distinct fetched
ids) and never re-pushes an id that is already in the seen list. -/
theorem count_processEvents_le_one (notifications : List Nat)
    (events : List Evento) (x : Nat) (h : (events.map Evento.id).Nodup)
    (hc : notifications.count x ≤ 1) :
    ((processEvents notifications events).2).count x ≤ 1 := by
  rw [processEvents_seen, List.count_append, processEvents_new_ids]
  by_cases hm : x ∈ notifications
  · have : x ∉ (events.map Evento.id).filter (fun i => isNew notifications i) := by
      intro hmem
      have := List.of_mem_filter hmem
      rw [(isNew_eq_false_iff _ _).mpr hm] at this
      exact Bool.false_ne_true this
    rw [List.count_eq_zero.mpr this]
    omega
  · have h0 : notifications.count x = 0 := List.count_eq_zero.mpr hm
    have h1 : ((events.map Evento.id).filter
        (fun i => isNew notifications i)).count x ≤ 1 :=
      List.nodup_iff_count_le_one.mp (h.filter _) x
    omega

/-- Session-wide form: across any sequence of cycles the count of any
id in the seen list stays at most one. -/
theorem count_seenAfterCycles_le_one (notifications : List Nat)
    (cycles : List (List Evento)) (x : Nat)
    (h : ∀ c ∈ cycles, (c.map Evento.id).Nodup)
    (hc : notifications.count x ≤ 1) :
    (seenAfterCycles notifications cycles).count x ≤ 1 := by
  induction cycles generalizing notifications with
  | nil => exact hc
  | cons c cs ih =>
    rw [seenAfterCycles, List.foldl_cons]
    exact ih _ (fun d hd => h d (List.mem_cons_of_mem _ hd))
      (count_processEvents_le_one _ _ _ (h c (List.mem_cons_self ..)) hc)

/-- Distinct-count bookkeeping behind claim C1: for `Nodup` id lists
`A` and `B`, `|A|` plus the number of elements of `B` outside `A` is
the number of distinct elements of `A ++ B`. -/
theorem length_add_filter_not_mem (A B : List Nat) (hA : A.Nodup)
    (hB : B.Nodup) :
    A.length + (B.filter (fun b => isNew A b)).length =
      ((A ++ B).dedup).length := by
  classical
  have hfil : B.filter (fun b => isNew A b) = B.filter (fun b => decide (b ∉ A)) := by
    apply List.filter_congr
    intro b _
    rw [isNew, Bool.eq_iff_iff, Bool.not_eq_true', Bool.eq_false_iff,
      decide_eq_true_eq, ne_eq, contains_iff_mem]
  have hC : (B.filter (fun b => decide (b ∉ A))).toFinset =
      B.toFinset \ A.toFinset := by
    ext y
    simp [List.mem_filter, Finset.mem_sdiff, and_comm]
  have hlenA : A.length = A.toFinset.card := (List.toFinset_card_of_nodup hA).symm
  have hlenC : (B.filter (fun b => decide (b ∉ A))).length =
      (B.toFinset \ A.toFinset).card := by
    rw [← hC]
    exact (List.toFinset_card_of_nodup (hB.filter _)).symm
  rw [hfil, hlenA, hlenC, ← List.card_toFinset, List.toFinset_append,
    Finset.union_comm, ← Finset.card_sdiff_add_card, Nat.add_comm]

theorem isNew_iterate_markSeen_of_false (x m : Nat) (seen : List Nat)
    (h : isNew seen x = false) :
    isNew ((fun s => markSeen s x)^[m] seen) x = false := by
  induction m generalizing seen with
  | zero => exact h
  | succ m ih =>
    rw [Function.iterate_succ_apply]
    exact ih _ (isNew_markSeen_of_false _ _ _ h)

/-!  Concrete events of the spec's two-cycle scenario. -/

/-- The event of id 1 fetched in poll cycle 1. -/
def evento1 : Evento :=
  ⟨1, "intruso_detectado", "alta", "Persona no autorizada", "2024-01-01T10:00:00Z",
    "Entrada", false⟩

/-- The event of id 2 first fetched in poll cycle 2. -/
def evento2 : Evento :=
  ⟨2, "horario_inusual", "media", "Acceso fuera de horario", "2024-01-01T10:00:30Z",
    "Patio", false⟩

/-- The integer computed inside `pctToFixed1` is the half-up rounding
of `c * 1000`: it is the unique natural `n` with
`n ≤ c * 1000 + 1/2 < n + 1` for `0 ≤ c`. -/
theorem pctToFixed1_rounds (c : Rat) (hc : 0 ≤ c) :
    (((2000 * c.num.toNat + c.den) / (2 * c.den) : Nat) : ℚ) ≤
        c * 1000 + 1 / 2 ∧
      c * 1000 + 1 / 2 <
        (((2000 * c.num.toNat + c.den) / (2 * c.den) : Nat) : ℚ) + 1 := by
  have hdpos : 0 < c.den := Nat.pos_of_ne_zero c.den_nz
  set N : Nat := 2000 * c.num.toNat + c.den with hN
  set D : Nat := 2 * c.den with hD2
  have hD : 0 < D := by omega
  have h1 : N / D * D ≤ N := Nat.div_mul_le_self N D
  have h2 : N < (N / D + 1) * D :=
    calc N = D * (N / D) + N % D := (Nat.div_add_mod N D).symm
      _ < D * (N / D) + D := by
          have := Nat.mod_lt N hD
          omega
      _ = (N / D + 1) * D := by ring
  have hDq : (0 : ℚ) < (D : ℚ) := by exact_mod_cast hD
  have hnumReal : ((c.num.toNat : ℕ) : ℚ) = (c.num : ℚ) := by
    have h := Int.toNat_of_nonneg (Rat.num_nonneg.mpr hc)
    exact_mod_cast congrArg (fun z : ℤ => (z : ℚ)) h
  have hval : c * 1000 + 1 / 2 = (N : ℚ) / (D : ℚ) := by
    rw [hN, hD2]
    have hden : ((c.den : ℚ)) ≠ 0 := by positivity
    rw [show c * 1000 = c.num / c.den * 1000 by rw [Rat.num_div_den c]]
    push_cast
    rw [hnumReal]
    field_simp
    ring
  constructor
  · rw [hval, le_div_iff₀ hDq]
    exact_mod_cast h1
  · rw [hval, div_lt_iff₀ hDq]
    exact_mod_cast h2

/-!  Decimal rendering lemmas (id round-trip in the events CSV). -/

theorem digitChar_isDigit {d : Nat} (h : d < 10) :
    (Nat.digitChar d).isDigit = true := by
  interval_cases d <;> decide

theorem digitChar_toNat {d : Nat} (h : d < 10) :
    (Nat.digitChar d).toNat - 48 = d := by
  interval_cases d <;> decide

theorem natRenderAux_zero (fuel : Nat) (acc : List Char) :
    natRenderAux fuel 0 acc = acc := by
  cases fuel <;> simp [natRenderAux]

theorem natRenderAux_append (fuel : Nat) :
    ∀ (n : Nat) (acc : List Char),
      natRenderAux fuel n acc = natRenderAux fuel n [] ++ acc := by
  induction fuel with
  | zero =>
    intro n acc
    simp [natRenderAux]
  | succ fuel ih =>
    intro n acc
    by_cases h : n = 0
    · subst h
      simp [natRenderAux]
    · rw [natRenderAux, if_neg h, natRenderAux, if_neg h,
        ih (n / 10) (Nat.digitChar (n % 10) :: acc),
        ih (n / 10) [Nat.digitChar (n % 10)], List.append_assoc,
        List.singleton_append]

theorem natRenderAux_mem (fuel : Nat) :
    ∀ (n : Nat) (acc : List Char) (c : Char), c ∈ natRenderAux fuel n acc →
      c ∈ acc ∨ c.isDigit = true := by
  induction fuel with
  | zero =>
    intro n acc c h
    exact Or.inl h
  | succ fuel ih =>
    intro n acc c h
    by_cases hn : n = 0
    · subst hn
      exact Or.inl (by simpa [natRenderAux] using h)
    · rw [natRenderAux, if_neg hn] at h
      rcases ih (n / 10) _ c h with hacc | hdig
      · rcases List.mem_cons.mp hacc with rfl | hacc2
        · exact Or.inr (digitChar_isDigit (Nat.mod_lt n (by omega)))
        · exact Or.inl hacc2
      · exact Or.inr hdig

theorem natRender_digits {n : Nat} {c : Char} (h : c ∈ natRender n) :
    c.isDigit = true := by
  by_cases h0 : n = 0
  · subst h0
    rw [natRender, if_pos rfl, List.mem_singleton] at h
    subst h
    decide
  · rw [natRender, if_neg h0] at h
    rcases natRenderAux_mem n n [] c h with habs | hd
    · simp at habs
    · exact hd

theorem not_mem_natRender {c : Char} (n : Nat) (hc : c.isDigit = false) :
    c ∉ natRender n := by
  intro hm
  rw [natRender_digits hm] at hc
  exact absurd hc (by decide)

theorem foldl_val_linear (cs : List Char) :
    ∀ a : Nat, cs.foldl (fun a c => a * 10 + (c.toNat - 48)) a =
      a * 10 ^ cs.length + digitsVal cs := by
  induction cs with
  | nil =>
    intro a
    simp [digitsVal]
  | cons c cs ih =>
    intro a
    have h2 : digitsVal (c :: cs) =
        (0 * 10 + (c.toNat - 48)) * 10 ^ cs.length + digitsVal cs := by
      rw [digitsVal, List.foldl_cons]
      exact ih _
    rw [List.foldl_cons, ih, h2, List.length_cons, pow_succ]
    ring

theorem digitsVal_append_singleton (cs : List Char) (c : Char) :
    digitsVal (cs ++ [c]) = 10 * digitsVal cs + (c.toNat - 48) := by
  rw [digitsVal, List.foldl_append, List.foldl_cons, List.foldl_nil]
  show digitsVal cs * 10 + _ = _
  ring

theorem natRenderAux_val (fuel : Nat) :
    ∀ n : Nat, n ≠ 0 → n ≤ fuel →
      digitsVal (natRenderAux fuel n []) = n := by
  induction fuel with
  | zero =>
    intro n h0 hle
    omega
  | succ fuel ih =>
    intro n h0 hle
    rw [natRenderAux, if_neg h0, natRenderAux_append]
    by_cases hq : n / 10 = 0
    · rw [hq, natRenderAux_zero, List.nil_append]
      have hn10 : n < 10 := by omega
      show 0 * 10 + ((Nat.digitChar (n % 10)).toNat - 48) = n
      have := digitChar_toNat (Nat.mod_lt n (by omega))
      omega
    · have hlt : n / 10 ≤ fuel := by
        have := Nat.div_lt_self (Nat.pos_of_ne_zero h0) (by omega : 1 < 10)
        omega
      rw [digitsVal_append_singleton, ih (n / 10) hq hlt,
        digitChar_toNat (Nat.mod_lt n (by omega))]
      omega

theorem natRender_ne_nil (n : Nat) : natRender n ≠ [] := by
  by_cases h : n = 0
  · subst h
    simp [natRender]
  · rw [natRender, if_neg h]
    intro hnil
    have hval : digitsVal (natRenderAux n n []) = n :=
      natRenderAux_val n n h le_rfl
    rw [hnil] at hval
    exact h hval.symm

theorem natRender_val (n : Nat) : digitsVal (natRender n) = n := by
  by_cases h : n = 0
  · subst h
    decide
  · rw [natRender, if_neg h]
    exact natRenderAux_val n n h le_rfl

theorem digitsToNat?_natRender (n : Nat) :
    digitsToNat? (natRender n) = some n := by
  rw [digitsToNat?, if_pos ⟨natRender_ne_nil n,
    List.all_eq_true.mpr (fun c hc => natRender_digits hc)⟩,
    natRender_val]

/-!  Parsing lemmas for the events CSV round trip. -/

theorem readUntil_append (c : Char) (pre post : List Char) (h : c ∉ pre) :
    readUntil c (pre ++ c :: post) = some (pre, post) := by
  induction pre with
  | nil => simp [readUntil]
  | cons x xs ih =>
    rw [List.mem_cons] at h
    push_neg at h
    rw [List.cons_append, readUntil, if_neg (fun hx => h.1 hx.symm),
      ih h.2, Option.map_some']

theorem readQuotedComma_append (f rest : List Char) (h : '"' ∉ f) :
    readQuotedComma ('"' :: (f ++ '"' :: ',' :: rest)) = some (f, rest) := by
  rw [readQuotedComma, readUntil_append '"' f (',' :: rest) h]
  rfl

theorem string_mk_data (s : String) : String.mk s.data = s :=
  rfl

/-- The character sequence of one generated CSV row, grouped the way
the parser consumes it. -/
theorem eventoRow_data (e : Evento) :
    (eventoRow e).data =
      natRender e.id ++ ',' :: '"' ::
        (e.tipo.data ++ '"' :: ',' :: '"' ::
          (e.severidad.data ++ '"' :: ',' :: '"' ::
            (e.descripcion.data ++ '"' :: ',' :: '"' ::
              (e.timestamp.data ++ '"' :: ',' :: '"' ::
                (e.camara_nombre.data ++ '"' :: ',' ::
                  boolChars e.resuelto))))) := by
  have d1 : (",\"" : String).data = [',', '"'] := rfl
  have d2 : ("\",\"" : String).data = ['"', ',', '"'] := rfl
  have d3 : ("\"," : String).data = ['"', ','] := rfl
  have d4 : ("true" : String).data = ['t', 'r', 'u', 'e'] := rfl
  have d5 : ("false" : String).data = ['f', 'a', 'l', 's', 'e'] := rfl
  have dmk : ∀ l : List Char, (String.mk l).data = l := fun l => rfl
  cases hb : e.resuelto <;>
    simp [eventoRow, strOfNat, boolChars, hb, String.data_append, d1, d2,
      d3, d4, d5, dmk, List.append_assoc]

theorem parseEventoLine_eventoRow (e : Evento) (h : cleanEvento e) :
    parseEventoLine (eventoRow e).data = some e := by
  obtain ⟨i, t, sv, d, ts, cn, b⟩ := e
  obtain ⟨⟨ht1, _⟩, ⟨hs1, _⟩, ⟨hd1, _⟩, ⟨hts1, _⟩, ⟨hc1, _⟩⟩ := h
  rw [eventoRow_data]
  simp only [parseEventoLine,
    readUntil_append ',' (natRender i) _
      (not_mem_natRender i (by decide)),
    digitsToNat?_natRender,
    readQuotedComma_append _ _ ht1, readQuotedComma_append _ _ hs1,
    readQuotedComma_append _ _ hd1, readQuotedComma_append _ _ hts1,
    readQuotedComma_append _ _ hc1, Option.bind_eq_bind,
    Option.some_bind]
  cases b <;> simp [boolChars, parseBoolEnd, string_mk_data]

theorem eventoRow_no_newline (e : Evento) (h : cleanEvento e) :
    '\n' ∉ (eventoRow e).data := by
  obtain ⟨i, t, sv, d, ts, cn, b⟩ := e
  obtain ⟨⟨_, ht2⟩, ⟨_, hs2⟩, ⟨_, hd2⟩, ⟨_, hts2⟩, ⟨_, hc2⟩⟩ := h
  rw [eventoRow_data]
  intro hm
  cases b <;> simp [ht2, hs2, hd2, hts2, hc2, boolChars] at hm <;>
    exact absurd (natRender_digits hm) (by decide)

theorem eventoRow_data_ne_nil (e : Evento) : (eventoRow e).data ≠ [] := by
  rw [eventoRow_data]
  simp [natRender_ne_nil]

theorem joinSep_data_ne_nil (sep : String) (x : String) (xs : List String)
    (hx : x.data ≠ []) : (joinSep sep (x :: xs)).data ≠ [] := by
  cases xs with
  | nil => simpa [joinSep] using hx
  | cons y ys =>
    rw [joinSep, String.data_append, String.data_append]
    simp [hx]

theorem mapM_map_eq_some {α β : Type} (f : α → β) (p : β → Option α) :
    ∀ l : List α, (∀ a ∈ l, p (f a) = some a) →
      (l.map f).mapM p = some l := by
  intro l
  induction l with
  | nil =>
    intro _
    rfl
  | cons a as ih =>
    intro h
    rw [List.map_cons, List.mapM_cons, h a (List.mem_cons_self ..),
      ih (fun b hb => h b (List.mem_cons_of_mem _ hb))]
    rfl

/-!  Claims C1, C2, C9: the seen-event tracker. -/

/-- Claim C1: starting a session, for two consecutive poll cycles
fetching id-distinct event lists with cycle 2 a superset of cycle 1,
the notifications presented across both cycles number exactly the
distinct event ids across both cycles, and so does the seen list after
cycle 2; concretely, cycles `[evento1]` then `[evento1, evento2]`
present exactly `[notif for evento1]` then `[notif for evento2]` and
leave the seen list `[1, 2]` of count 2. -/
theorem claim1_no_duplicate_notifications (c1 c2 : List Evento)
    (h1 : (c1.map Evento.id).Nodup) (h2 : (c2.map Evento.id).Nodup)
    (_hsup : ∀ e ∈ c1, e ∈ c2) :
    ((processEvents [] c1).1.length +
          (processEvents (processEvents [] c1).2 c2).1.length =
        (((c1 ++ c2).map Evento.id).dedup).length ∧
      (processEvents (processEvents [] c1).2 c2).2.length =
        (((c1 ++ c2).map Evento.id).dedup).length) ∧
      (processEvents [] [evento1]).1 = [eventNotif evento1] ∧
      (processEvents (processEvents [] [evento1]).2 [evento1, evento2]).1 =
        [eventNotif evento2] ∧
      (processEvents (processEvents [] [evento1]).2 [evento1, evento2]).2 =
        [1, 2] := by
  have hfil1 : c1.filter (fun e => isNew [] e.id) = c1 :=
    List.filter_eq_self.mpr (fun a _ => rfl)
  have hA : (processEvents [] c1).2 = c1.map Evento.id := by
    rw [processEvents_seen, List.nil_append, hfil1]
  have hn1 : (processEvents [] c1).1.length = c1.length := by
    show ((c1.filter _).map eventNotif).length = _
    rw [List.length_map, hfil1]
  have hn2 : (processEvents (c1.map Evento.id) c2).1.length =
      ((c2.map Evento.id).filter
        (fun i => isNew (c1.map Evento.id) i)).length := by
    show ((c2.filter _).map eventNotif).length = _
    rw [List.length_map, ← List.length_map (f := Evento.id),
      processEvents_new_ids]
  have hkey := length_add_filter_not_mem (c1.map Evento.id) (c2.map Evento.id)
    h1 h2
  rw [← List.map_append] at hkey
  refine ⟨⟨?_, ?_⟩, by decide, by decide, by decide⟩
  · rw [hA, hn1, hn2, ← hkey, List.length_map]
  · rw [hA, processEvents_seen, List.length_append, processEvents_new_ids,
      ← hkey, List.length_map]

/-- Witness for claim C1 at the spec's concrete two-cycle scenario. -/
theorem claim1_witness :
    ((processEvents [] [evento1]).1.length +
          (processEvents (processEvents [] [evento1]).2
            [evento1, evento2]).1.length =
        ((([evento1] ++ [evento1, evento2]).map Evento.id).dedup).length ∧
      (processEvents (processEvents [] [evento1]).2
            [evento1, evento2]).2.length =
        ((([evento1] ++ [evento1, evento2]).map Evento.id).dedup).length) ∧
      (processEvents [] [evento1]).1 = [eventNotif evento1] ∧
      (processEvents (processEvents [] [evento1]).2 [evento1, evento2]).1 =
        [eventNotif evento2] ∧
      (processEvents (processEvents [] [evento1]).2 [evento1, evento2]).2 =
        [1, 2] :=
  claim1_no_duplicate_notifications [evento1] [evento1, evento2]
    (by decide) (by decide) (by decide)

/-- Claim C2: the per-identifier mark-seen update is idempotent (an
already-seen id leaves the seen list, hence its count, unchanged); the
batch update of a cycle on id-distinct input is exactly the fold of
that per-identifier update; and across any session of such cycles an
identifier enters the seen list at most once. -/
theorem claim2_markSeen_idempotent :
    (∀ (seen : List Nat) (i : Nat), seen.contains i = true →
        markSeen seen i = seen) ∧
      (∀ (seen : List Nat) (events : List Evento),
        (events.map Evento.id).Nodup →
        (processEvents seen events).2 =
          events.foldl (fun s e => markSeen s e.id) seen) ∧
      (∀ (seen : List Nat) (cycles : List (List Evento)) (x : Nat),
        (∀ c ∈ cycles, (c.map Evento.id).Nodup) → seen.count x ≤ 1 →
        (seenAfterCycles seen cycles).count x ≤ 1) :=
  ⟨fun seen i h => markSeen_of_mem ((contains_iff_mem seen i).mp h),
    processEvents_seen_eq_foldl,
    count_seenAfterCycles_le_one⟩

/-- Witness for claim C2 at concrete seen lists and event batches. -/
theorem claim2_witness :
    markSeen [5, 7] 5 = [5, 7] ∧
      (processEvents [5] [evento1, evento2]).2 =
        [evento1, evento2].foldl (fun s e => markSeen s e.id) [5] ∧
      (seenAfterCycles [5] [[evento1], [evento1, evento2]]).count 1 ≤ 1 :=
  ⟨claim2_markSeen_idempotent.1 [5, 7] 5 (by decide),
    claim2_markSeen_idempotent.2.1 [5] [evento1, evento2] (by decide),
    claim2_markSeen_idempotent.2.2 [5] [[evento1], [evento1, evento2]] 1
      (by decide) (by decide)⟩

/-- Claim C9: `isNew` is true on a fresh session and is unaffected by
marking other ids; after marking an id any positive number of times it
is false; once false it stays false under further marking and under
whole poll cycles; `isNew` itself is a pure read of the seen list. -/
theorem claim9_isNew_contract :
    (∀ x : Nat, isNew [] x = true) ∧
      (∀ (seen : List Nat) (x y : Nat), x ≠ y →
        isNew (markSeen seen y) x = isNew seen x) ∧
      (∀ (seen : List Nat) (x n : Nat), 0 < n →
        isNew ((fun s => markSeen s x)^[n] seen) x = false) ∧
      (∀ (seen : List Nat) (x y : Nat), isNew seen x = false →
        isNew (markSeen seen y) x = false) ∧
      (∀ (seen : List Nat) (events : List Evento) (x : Nat),
        isNew seen x = false → isNew (processEvents seen events).2 x = false) := by
  refine ⟨fun x => rfl, fun seen x y h => isNew_markSeen_other seen h,
    ?_, isNew_markSeen_of_false, ?_⟩
  · intro seen x n hn
    obtain ⟨m, rfl⟩ : ∃ m, n = m + 1 := ⟨n - 1, by omega⟩
    rw [Function.iterate_succ_apply]
    exact isNew_iterate_markSeen_of_false x m _ (isNew_markSeen_self seen x)
  · intro seen events x h
    rw [processEvents_seen]
    exact isNew_append _ _ _ h

/-- Witness for claim C9 at concrete ids and seen lists. -/
theorem claim9_witness :
    isNew (markSeen [9] 4) 3 = isNew [9] 3 ∧
      isNew ((fun s => markSeen s 3)^[2] []) 3 = false ∧
      isNew (markSeen [3] 4) 3 = false ∧
      isNew (processEvents [1] [evento2]).2 1 = false :=
  ⟨claim9_isNew_contract.2.1 [9] 3 4 (by decide),
    claim9_isNew_contract.2.2.1 [] 3 2 (by decide),
    claim9_isNew_contract.2.2.2.1 [3] 3 4 (by decide),
    claim9_isNew_contract.2.2.2.2 [1] [evento2] 1 (by decide)⟩

/-!  Claim C5: the events CSV round trip. -/

/-- An event whose `tipo` field contains a double quote, which the
generator emits unescaped. -/
def dirtyEvento : Evento :=
  ⟨7, "puerta \"trasera\"", "alta", "acceso forzado", "2024-01-01T10:00:00Z",
    "cam1", true⟩

/-- Counterexample to claim C5 as stated: for a record whose `tipo`
contains a double quote, the generated CSV does not parse back to the
record (the unescaped quote ends the field early and the parse fails),
so the round trip does not hold for every list of event records. -/
theorem claim5_counterexample :
    parseEventosCSV (generateEventosCSV [dirtyEvento]) = none ∧
      parseEventosCSV (generateEventosCSV [dirtyEvento]) ≠
        some [dirtyEvento] := by
  decide

/-- Claim C5 as amended: for every list of event records whose string
fields (tipo, severidad, descripcion, timestamp, camara) contain no
double quote and no newline, parsing the generated events CSV back,
respecting its quoting convention, yields records with id, tipo,
severidad, descripcion, timestamp, camara and resuelto values identical
to the input records. -/
theorem claim5_eventos_roundtrip (data : List Evento)
    (h : ∀ e ∈ data, cleanEvento e) :
    parseEventosCSV (generateEventosCSV data) = some data := by
  have hdata : (generateEventosCSV data).data =
      eventosHeader.data ++ (joinSep "\n" (data.map eventoRow)).data := by
    simp [generateEventosCSV, eventosHeader, String.data_append]
  rw [parseEventosCSV, hdata, List.take_left, if_pos rfl, List.drop_left]
  cases data with
  | nil => simp [joinSep]
  | cons e rest =>
    have hne : (joinSep "\n" ((e :: rest).map eventoRow)).data ≠ [] := by
      rw [List.map_cons]
      exact joinSep_data_ne_nil _ _ _ (eventoRow_data_ne_nil e)
    rw [if_neg hne]
    have hnl : ∀ l ∈ (e :: rest).map eventoRow, '\n' ∉ l.data := by
      intro l hl
      rcases List.mem_map.mp hl with ⟨a, ha, rfl⟩
      exact eventoRow_no_newline a (h a ha)
    rw [splitNl_joinSep (by simp) hnl, List.map_map]
    exact mapM_map_eq_some _ _ _
      (fun a ha => parseEventoLine_eventoRow a (h a ha))

/-- Witness for the amended claim C5 at the two concrete events. -/
theorem claim5_witness :
    parseEventosCSV (generateEventosCSV [evento1, evento2]) =
      some [evento1, evento2] :=
  claim5_eventos_roundtrip [evento1, evento2] (by decide)

/-!  Claim C3: the toast slot under two overlapping presentations.

`showNotification` never cancels the previously scheduled
`setTimeout`, so after `present(A)` at `tA` and `present(B)` at
`tB < tA + TOAST_MS`, the timer armed by `present(A)` still fires at
`tA + TOAST_MS` and removes the `active` class: the toast is dismissed
5 seconds after `present(A)`, not after `present(B)`. -/

/-- A first concrete notification request. -/
def notifA : Notif :=
  ⟨"A", "first", "success"⟩

/-- A second concrete notification request. -/
def notifB : Notif :=
  ⟨"B", "second", "error"⟩

/-- Counterexample to claim C3 as stated: with `present(A)` at time 0
and `present(B)` at time 1000 (within A's display window), the claim
puts the auto-dismiss at `1000 + TOAST_MS = 6000`, so at time 5000 the
toast should still be visible; but A's un-cancelled timer has already
fired at `0 + TOAST_MS = 5000` and the toast is inactive there. -/
theorem claim3_counterexample :
    (0 : Nat) ≤ 1000 ∧ (1000 : Nat) < 0 + TOAST_MS ∧
      (1000 : Nat) ≤ 5000 ∧ (5000 : Nat) < 1000 + TOAST_MS ∧
      (toastAt (twoPresentTrace 0 1000 notifA notifB) 5000).active = false := by
  decide

/-- Claim C3 as amended: `present(B)` immediately replaces the visible
content with B's, and from `tB` on only B's content is ever in the
slot; but the auto-dismiss fires at `tA + TOAST_MS` — the display
duration measured from `present(A)` — because `showNotification` never
cancels the earlier timer, and the slot stays inactive from then on
(in particular through `tB + TOAST_MS`). -/
theorem claim3_notification_preemption (tA tB : Nat) (A B : Notif)
    (hab : tA ≤ tB) (hlt : tB < tA + TOAST_MS) :
    (∀ t, tB ≤ t → t < tA + TOAST_MS →
        toastAt (twoPresentTrace tA tB A B) t =
          ⟨B.title, B.message, B.kind, true⟩) ∧
      (∀ t, tA + TOAST_MS ≤ t →
        toastAt (twoPresentTrace tA tB A B) t =
          ⟨B.title, B.message, B.kind, false⟩) := by
  constructor
  · intro t ht1 ht2
    have c1 : tA ≤ t := le_trans hab ht1
    have c3 : ¬(tA + TOAST_MS ≤ t) := by omega
    have c4 : ¬(tB + TOAST_MS ≤ t) := by omega
    simp [toastAt, twoPresentTrace, List.filter_cons, c1, ht1, c3, c4,
      stepUI, initialToast]
  · intro t ht
    have c1 : tA ≤ t := by omega
    have c2 : tB ≤ t := by omega
    by_cases c4 : tB + TOAST_MS ≤ t
    · simp [toastAt, twoPresentTrace, List.filter_cons, c1, c2, ht, c4,
        stepUI, initialToast]
    · simp [toastAt, twoPresentTrace, List.filter_cons, c1, c2, ht, c4,
        stepUI, initialToast]

/-- Witness for the amended claim C3 at concrete times: B's content
active at 3000, already dismissed at 5500 (before 1000 + TOAST_MS). -/
theorem claim3_witness :
    toastAt (twoPresentTrace 0 1000 notifA notifB) 3000 =
        ⟨"B", "second", "error", true⟩ ∧
      toastAt (twoPresentTrace 0 1000 notifA notifB) 5500 =
        ⟨"B", "second", "error", false⟩ :=
  ⟨(claim3_notification_preemption 0 1000 notifA notifB (by decide)
      (by decide)).1 3000 (by decide) (by decide),
    (claim3_notification_preemption 0 1000 notifA notifB (by decide)
      (by decide)).2 5500 (by decide)⟩

/-!  Claim C4: failure semantics of a poll cycle. -/

/-- An arbitrary concrete stats snapshot. -/
def someStats : Stats :=
  ⟨4, 12, 3, 1, 2, 1⟩

/-- Counterexample to claim C4 as stated: an unsuccessful parsed
response (`success: false`) is a failed fetch of the events step, yet
the cycle emits no log at all — only *thrown* errors reach the `catch`
blocks that call `console.error`; the `if (data.success)` guard skips
silently. -/
theorem claim4_counterexample :
    (FetchOutcome.ok false [evento1] : FetchOutcome (List Evento)).failed = true ∧
      (runCycle [] (.ok true someStats) (.ok true []) (.ok false [evento1])).logs =
        [] := by
  decide

/-- Claim C4 as amended: in every poll cycle a *thrown* fetch failure
(network error, parse failure) in any step is logged, while an
unsuccessful parsed response is skipped silently; in all failure cases
the step is a no-op — a failed events step leaves the seen set
unchanged and presents no notification, a failed stats step leaves the
counters untouched — the fixed-interval schedule still runs every
scheduled cycle, and no step's outcome depends on another step's fetch
result. -/
theorem claim4_failure_semantics :
    (∀ (seen : List Nat) (sF : FetchOutcome Stats)
        (dF : FetchOutcome (List Detection)),
      "Error verificando eventos:" ∈ (runCycle seen sF dF .err).logs) ∧
      (∀ (seen : List Nat) (dF : FetchOutcome (List Detection))
          (eF : FetchOutcome (List Evento)),
        "Error cargando estadísticas:" ∈ (runCycle seen .err dF eF).logs) ∧
      (∀ (seen : List Nat) (sF : FetchOutcome Stats)
          (eF : FetchOutcome (List Evento)),
        "Error cargando detecciones:" ∈ (runCycle seen sF .err eF).logs) ∧
      (∀ (seen : List Nat) (sF : FetchOutcome Stats)
          (dF : FetchOutcome (List Detection)) (eF : FetchOutcome (List Evento)),
        eF.failed = true →
        (runCycle seen sF dF eF).seen = seen ∧
          (runCycle seen sF dF eF).notifs = []) ∧
      (∀ (seen : List Nat) (sF : FetchOutcome Stats)
          (dF : FetchOutcome (List Detection)) (eF : FetchOutcome (List Evento)),
        sF.failed = true → (runCycle seen sF dF eF).stats = none) ∧
      (∀ (seen : List Nat) (sF : FetchOutcome Stats)
          (dF : FetchOutcome (List Detection))
          (eF eF2 : FetchOutcome (List Evento)),
        (runCycle seen sF dF eF).stats = (runCycle seen sF dF eF2).stats ∧
          (runCycle seen sF dF eF).dets = (runCycle seen sF dF eF2).dets) ∧
      (∀ (seen : List Nat) (sF sF2 : FetchOutcome Stats)
          (dF dF2 : FetchOutcome (List Detection))
          (eF : FetchOutcome (List Evento)),
        (runCycle seen sF dF eF).seen = (runCycle seen sF2 dF2 eF).seen ∧
          (runCycle seen sF dF eF).notifs = (runCycle seen sF2 dF2 eF).notifs) ∧
      (∀ (seen : List Nat)
          (inputs : List (FetchOutcome Stats × FetchOutcome (List Detection) ×
            FetchOutcome (List Evento))),
        (runCycles seen inputs).length = inputs.length) := by
  refine ⟨?_, ?_, ?_, ?_, ?_, ?_, ?_, ?_⟩
  · intro seen sF dF
    exact List.mem_append_right _ (List.mem_cons_self ..)
  · intro seen dF eF
    exact List.mem_append_left _ (List.mem_append_left _ (List.mem_cons_self ..))
  · intro seen sF eF
    exact List.mem_append_left _ (List.mem_append_right _ (List.mem_cons_self ..))
  · intro seen sF dF eF hf
    cases eF with
    | err => exact ⟨rfl, rfl⟩
    | ok s data =>
      rw [FetchOutcome.failed, Bool.not_eq_true'] at hf
      subst hf
      exact ⟨rfl, rfl⟩
  · intro seen sF dF eF hf
    cases sF with
    | err => rfl
    | ok s data =>
      rw [FetchOutcome.failed, Bool.not_eq_true'] at hf
      subst hf
      rfl
  · intro seen sF dF eF eF2
    exact ⟨rfl, rfl⟩
  · intro seen sF sF2 dF dF2 eF
    exact ⟨rfl, rfl⟩
  · intro seen inputs
    induction inputs generalizing seen with
    | nil => rfl
    | cons i rest ih =>
      obtain ⟨sF, dF, eF⟩ := i
      rw [runCycles, List.length_cons, List.length_cons, ih]

/-- Witness for the amended claim C4 at concrete cycle inputs. -/
theorem claim4_witness :
    ((runCycle [3] (.ok true someStats) (.ok true []) (.ok false [evento1])).seen =
          [3] ∧
        (runCycle [3] (.ok true someStats) (.ok true [])
            (.ok false [evento1])).notifs = []) ∧
      (runCycle [3] .err (.ok true []) (.ok true [evento1])).stats = none ∧
      (runCycles []
          [(.err, .err, .err),
            (.ok true someStats, .ok true [], .ok true [evento1])]).length = 2 :=
  ⟨claim4_failure_semantics.2.2.2.1 [3] (.ok true someStats) (.ok true [])
      (.ok false [evento1]) (by decide),
    claim4_failure_semantics.2.2.2.2.1 [3] .err (.ok true [])
      (.ok true [evento1]) (by decide),
    claim4_failure_semantics.2.2.2.2.2.2.2 []
      [(.err, .err, .err),
        (.ok true someStats, .ok true [], .ok true [evento1])]⟩

/-!  Claims C10, C7, C8: the export generators on concrete shapes. -/

/-- Claim C10: the events CSV export of an empty record list is exactly
the fixed header line followed by a newline — a non-empty string —
while the generic delimited export of an empty sequence is the empty
string. -/
theorem claim10_empty_eventos_csv :
    generateEventosCSV [] =
        "ID,Tipo,Severidad,Descripcion,Timestamp,Camara,Resuelto\n" ∧
      generateEventosCSV [] ≠ "" ∧ generateCSV [] = "" := by
  refine ⟨by decide, by decide, rfl⟩

/-- Claim C7: the generic delimited export of an empty sequence returns
the empty string, and the structured detections report of an empty
sequence still emits the banner, the generation timestamp, the
count-zero line and the rule line, with no per-record blocks. -/
theorem claim7_empty_input_determinism :
    generateCSV [] = "" ∧
      ∀ now : String,
        generatePDFContent now [] =
          "=== REPORTE DE DETECCIONES ===\n\n" ++
            ("Generado: " ++ now ++ "\n") ++
            "Total de detecciones: 0\n\n" ++ (ruleLine ++ "\n\n") := by
  refine ⟨rfl, fun now => ?_⟩
  have hcount : "Total de detecciones: " ++ strOfNat 0 ++ "\n\n" =
      "Total de detecciones: 0\n\n" := by decide
  calc generatePDFContent now []
      = pdfHeader now 0 ++ String.join [] := rfl
    _ = pdfHeader now 0 := by rw [string_join_nil, String.append_empty]
    _ = "=== REPORTE DE DETECCIONES ===\n\n" ++
          ("Generado: " ++ now ++ "\n") ++
          "Total de detecciones: 0\n\n" ++ (ruleLine ++ "\n\n") := by
        rw [pdfHeader, hcount]

/-- Claim C6: on a non-empty, uniformly-shaped record sequence the
generic delimited export is the newline-join of one header line (the
first record's field names, comma-joined) and one line per record (its
field values, comma-joined, unescaped); when no field name or value
contains a newline, splitting the output at newlines recovers exactly
that header line followed by one line per record. -/
theorem claim6_generic_csv_shape (first : List (String × String))
    (rest : List (List (String × String)))
    (huniform : ∀ r ∈ first :: rest, r.map Prod.fst = first.map Prod.fst) :
    generateCSV (first :: rest) =
        joinSep "\n" (csvHeaderLine first :: (first :: rest).map csvRowLine) ∧
      ((∀ p ∈ first, '\n' ∉ p.1.data) →
        (∀ r ∈ first :: rest, ∀ p ∈ r, '\n' ∉ p.2.data) →
        splitNl (generateCSV (first :: rest)).data =
          (csvHeaderLine first).data ::
            (first :: rest).map (fun r => (csvRowLine r).data)) := by
  have hmain : generateCSV (first :: rest) =
      joinSep "\n" (csvHeaderLine first :: (first :: rest).map csvRowLine) := by
    cases rest with
    | nil => rfl
    | cons r rs => rfl
  refine ⟨hmain, fun hkeys hvals => ?_⟩
  have hheader : '\n' ∉ (csvHeaderLine first).data := by
    intro hc
    rcases mem_joinSep hc with hsep | ⟨s, hmem, hcs⟩
    · simp at hsep
    · rcases List.mem_map.mp hmem with ⟨p, hp, rfl⟩
      exact hkeys p hp hcs
  have hrows : ∀ l ∈ (first :: rest).map csvRowLine, '\n' ∉ l.data := by
    intro l hl hc
    rcases List.mem_map.mp hl with ⟨r, hr, rfl⟩
    rcases mem_joinSep hc with hsep | ⟨s, hmem, hcs⟩
    · simp at hsep
    · rcases List.mem_map.mp hmem with ⟨p, hp, rfl⟩
      exact hvals r hr p hp hcs
  rw [hmain, splitNl_joinSep (by simp)
    (fun l hl => (List.mem_cons.mp hl).elim (fun he => he ▸ hheader)
      (fun ht => hrows l ht))]
  simp

/-- Witness for claim C6 at a concrete two-record, two-field input. -/
theorem claim6_witness :
    generateCSV [[("a", "1"), ("b", "2")], [("a", "3"), ("b", "4")]] =
        joinSep "\n"
          (csvHeaderLine [("a", "1"), ("b", "2")] ::
            [[("a", "1"), ("b", "2")], [("a", "3"), ("b", "4")]].map csvRowLine) ∧
      splitNl (generateCSV [[("a", "1"), ("b", "2")], [("a", "3"), ("b", "4")]]).data =
        (csvHeaderLine [("a", "1"), ("b", "2")]).data ::
          [[("a", "1"), ("b", "2")], [("a", "3"), ("b", "4")]].map
            (fun r => (csvRowLine r).data) := by
  have h := claim6_generic_csv_shape [("a", "1"), ("b", "2")]
    [[("a", "3"), ("b", "4")]] (by decide)
  exact ⟨h.1, h.2 (by decide) (by decide)⟩

/-- The detection record of the spec's report scenario. -/
def anaDetection : Detection :=
  ⟨"Ana", some "Lopez", false, mkRat 873 1000, "2024-01-01T10:00:00Z"⟩

/-- Claim C8: the structured detections report on the single record
Ana Lopez (known, confidence 0.873) renders the block with ordinal
"1.", name "Ana Lopez", status "CONOCIDO" and confidence "87.3%". -/
theorem claim8_detections_report_block :
    ∀ now : String,
      generatePDFContent now [anaDetection] =
        "=== REPORTE DE DETECCIONES ===\n\n" ++
          ("Generado: " ++ now ++ "\n") ++
          "Total de detecciones: 1\n\n" ++ (ruleLine ++ "\n\n") ++
          "1. Ana Lopez\n   Fecha: 2024-01-01T10:00:00Z\n   Estado: CONOCIDO\n   Confianza: 87.3%\n\n" := by
  intro now
  have hblock : detBlock 0 anaDetection =
      "1. Ana Lopez\n   Fecha: 2024-01-01T10:00:00Z\n   Estado: CONOCIDO\n   Confianza: 87.3%\n\n" := by
    decide
  have hcount : "Total de detecciones: " ++ strOfNat 1 ++ "\n\n" =
      "Total de detecciones: 1\n\n" := by decide
  calc generatePDFContent now [anaDetection]
      = pdfHeader now 1 ++ String.join [detBlock 0 anaDetection] := rfl
    _ = pdfHeader now 1 ++ detBlock 0 anaDetection := by
        rw [string_join_singleton]
    _ = "=== REPORTE DE DETECCIONES ===\n\n" ++
          ("Generado: " ++ now ++ "\n") ++
          "Total de detecciones: 1\n\n" ++ (ruleLine ++ "\n\n") ++
          "1. Ana Lopez\n   Fecha: 2024-01-01T10:00:00Z\n   Estado: CONOCIDO\n   Confianza: 87.3%\n\n" := by
        rw [pdfHeader, hcount, hblock]

end SafeVision
